import Mathlib

/-!
# Foreman orchestrator: shallow embedding and verification

This file embeds the issue-driven worker lifecycle engine of the foreman
orchestrator (`modules/orchestrator-foreman/amplifier_module_orchestrator_foreman/orchestrator.py`,
class `ForemanOrchestrator`) and proves the specified properties about it.

Modelling conventions:
* `asyncio.Task` state is the inductive `TaskState`; the `done()`, `cancelled()`
  and `exception()` flags are derived functions, mirroring asyncio semantics
  (a cancelled or failed task is done; `get_worker_status` only queries
  `exception()` after ruling out `cancelled()`, as the source does).
* The mutable fields of `ForemanOrchestrator` (`_spawned_issues`,
  `_spawn_errors`, `_worker_tasks`, `_recovery_done`, `_recovered_count`,
  `_orphaned_issues`) become the `OrchState` record; `_worker_tasks` is an
  association list with unique keys (a Python dict).
* The external issue store is opaque; a query `list status=S` is modelled by
  the corresponding field of `IssueStore` (the tool's reply for that filter).
* The filesystem walk of `_find_repo_root` is abstracted by the
  `repoRoot : Option String` field (the root it would discover, if any).
* Python truthiness of strings (`if not issue_id`, `if default_pool`,
  `if not worker_bundle`) is modelled explicitly: `none` and `some ""` are
  both falsy.
-/

namespace ForemanSpec

/-- State of an asyncio task backing a worker.  `running` is the only
unfinished state; `failed` means finished with an exception. -/
inductive TaskState where
  | running
  | completed
  | failed
  | cancelled
deriving DecidableEq

/-- `asyncio.Task.done()`. -/
def TaskState.done : TaskState → Bool
  | .running => false
  | _ => true

/-- `asyncio.Task.cancelled()`. -/
def TaskState.isCancelled : TaskState → Bool
  | .cancelled => true
  | _ => false

/-- Whether `asyncio.Task.exception()` returns a non-`None` exception
(only ever queried by the source on a done, non-cancelled task). -/
def TaskState.hasException : TaskState → Bool
  | .failed => true
  | _ => false

/-- A tracked worker task: the handle identity (so distinct spawns are
distinguishable), its current state, and the resolved bundle it runs. -/
structure WorkerTask where
  taskId : Nat
  state : TaskState
  bundle : String
deriving DecidableEq

/-- A foreman-side view of an issue, as the dicts returned by the issue tool.
Optional fields model `.get` on keys that may be absent. -/
structure Issue where
  id : Option String
  title : Option String
  issue_type : Option String
  metadataType : Option String
  status : String
deriving DecidableEq

/-- One entry of `routing.rules`. -/
structure Rule where
  if_metadata_type : Option (List String)
  then_pool : Option String
deriving DecidableEq

/-- One entry of `worker_pools`. -/
structure Pool where
  name : Option String
  worker_bundle : Option String
deriving DecidableEq

/-- The `routing` section of the configuration. -/
structure RoutingConfig where
  rules : List Rule
  default_pool : Option String
deriving DecidableEq

/-- The dict a create-operation of the issue tool returns
(`issue_result.get("issue", {})`). -/
structure IssueResult where
  issue : Option Issue
deriving DecidableEq

/-- The external issue store, abstracted as the replies the issue tool gives
to `list` queries filtered by each status the orchestrator uses. -/
structure IssueStore where
  openIssues : List Issue
  inProgressIssues : List Issue
  completedIssues : List Issue
  pendingIssues : List Issue
deriving DecidableEq

/-- The mutable state of a `ForemanOrchestrator` instance together with its
static configuration. -/
structure OrchState where
  workerPools : List Pool
  routing : RoutingConfig
  maxIterations : Nat
  repoRoot : Option String
  spawnedIssues : List String
  spawnErrors : List String
  blockedUpdates : List String
  workerTasks : List (String × WorkerTask)
  recoveryDone : Bool
  recoveredCount : Nat
  orphanedIssues : List Issue
  nextTaskId : Nat
deriving DecidableEq

/-! ## Association-list operations for the `_worker_tasks` dict -/

/-- `self._worker_tasks.get(issue_id)`. -/
def lookupTask (l : List (String × WorkerTask)) (iid : String) : Option WorkerTask :=
  (l.find? (fun p => p.1 = iid)).map Prod.snd

/-- `self._worker_tasks[issue_id] = task` (overwrite or append). -/
def setTask : List (String × WorkerTask) → String → WorkerTask → List (String × WorkerTask)
  | [], iid, t => [(iid, t)]
  | (k, v) :: rest, iid, t =>
    if k = iid then (k, t) :: rest else (k, v) :: setTask rest iid t

/-- `self._worker_tasks.pop(issue_id, None)`. -/
def removeTask (l : List (String × WorkerTask)) (iid : String) : List (String × WorkerTask) :=
  l.filter (fun p => p.1 ≠ iid)

/-- The set of issue ids currently tracked in the live-task table. -/
def taskKeys (l : List (String × WorkerTask)) : List String :=
  l.map Prod.fst

/-- `self._spawned_issues.add(iid)` (idempotent set insertion). -/
def insertIssue (s : List String) (iid : String) : List String :=
  if iid ∈ s then s else s ++ [iid]

/-! ## Kernel-computable string primitives

`String.startsWith`, `String.endsWith` and `String.splitOn` are opaque to
kernel reduction, so the Python string operations of the source are modelled
on the underlying character lists. -/

/-- `s.startswith(q)` (Python) / `String.startsWith`. -/
def strStartsWith (s q : String) : Bool :=
  q.data.isPrefixOf s.data

/-- `s.endswith(q)` (Python) / `String.endsWith`. -/
def strEndsWith (s q : String) : Bool :=
  q.data.isSuffixOf s.data

/-- Split a character list on `'/'` (the separator `os.path` uses). -/
def splitSlash : List Char → List (List Char)
  | [] => [[]]
  | c :: rest =>
    match splitSlash rest with
    | [] => [[c]]
    | h :: t => if c = '/' then [] :: h :: t else (c :: h) :: t

/-- `p.split("/")` as a list of strings. -/
def splitOnSlash (p : String) : List String :=
  (splitSlash p.data).map String.mk

/-! ## Issue routing (`_route_issue`, `_get_pool_by_name`) -/

/-- `issue.get("issue_type") or issue.get("metadata", {}).get("type", "general")`:
a missing or empty `issue_type` falls back to `metadata.type`, defaulting to
`"general"`. -/
def extractIssueType (issue : Issue) : String :=
  match issue.issue_type with
  | some s => if s = "" then issue.metadataType.getD "general" else s
  | none => issue.metadataType.getD "general"

/-- Whether a rule has an `if_metadata_type` key whose list contains the type. -/
def ruleMatches (itype : String) (r : Rule) : Bool :=
  match r.if_metadata_type with
  | some l => itype ∈ l
  | none => false

/-- `_get_pool_by_name`: first pool whose `name` equals the argument
(`None == None` holds in Python, hence `Option String` equality). -/
def getPoolByName (pools : List Pool) (name : Option String) : Option Pool :=
  pools.find? (fun p => p.name = name)

/-- `_route_issue`: first matching rule, else non-empty `default_pool`, else
the first configured pool, else `None`. -/
def routeIssue (pools : List Pool) (cfg : RoutingConfig) (issue : Issue) : Option Pool :=
  let itype := extractIssueType issue
  match cfg.rules.find? (ruleMatches itype) with
  | some r => getPoolByName pools r.then_pool
  | none =>
    match cfg.default_pool with
    | some d => if d = "" then pools.head? else getPoolByName pools (some d)
    | none => pools.head?

/-! ## Bundle path resolution (`_resolve_bundle_path`) -/

/-- `posixpath.join` for two components. -/
def joinPath (a b : String) : String :=
  if strStartsWith b "/" then b
  else if a = "" ∨ strEndsWith a "/" then a ++ b
  else a ++ "/" ++ b

/-- The component scan of `posixpath.normpath`: skip `""` and `"."`; append
`".."` when the path is relative and the stack is empty or the stack top is
already `".."`; otherwise `".."` pops a component (or is dropped at an
absolute root). -/
def normComps (isAbs : Bool) : List String → List String → List String
  | acc, [] => acc
  | acc, c :: rest =>
    if c = "" ∨ c = "." then normComps isAbs acc rest
    else if c = ".." then
      if (¬ isAbs ∧ acc = []) ∨ acc.getLast? = some ".." then
        normComps isAbs (acc ++ [c]) rest
      else if acc = [] then normComps isAbs acc rest
      else normComps isAbs acc.dropLast rest
    else normComps isAbs (acc ++ [c]) rest

/-- `os.path.normpath` (POSIX semantics, as used by the source). -/
def normpath (p : String) : String :=
  if p = "" then "."
  else
    let slashes : Nat :=
      if strStartsWith p "/" then
        if strStartsWith p "//" ∧ ¬ strStartsWith p "///" then 2 else 1
      else 0
    let comps := normComps (slashes > 0) [] (splitOnSlash p)
    let head := if slashes = 2 then "//" else if slashes = 1 then "/" else ""
    let out := head ++ String.intercalate "/" comps
    if out = "" then "." else out

/-- `_resolve_bundle_path`: absolute/addressable references pass through;
relative paths are joined onto the discoverable repo root and normalized;
with no root the path is returned unchanged (degraded, non-fatal). -/
def resolveBundlePath (repoRoot : Option String) (p : String) : String :=
  if strStartsWith p "git+" ∨ strStartsWith p "http" ∨ strStartsWith p "file:"
      ∨ strStartsWith p "/" then
    p
  else
    match repoRoot with
    | some r => normpath (joinPath r p)
    | none => p

/-! ## Worker task tracker (`_spawn_worker_task`, `_on_worker_complete`,
`_append_spawn_error`, `_maybe_spawn_worker`, `get_worker_status`) -/

/-- `_spawn_worker_task`: create a fresh running task, register it in the
live-task table and the ever-spawned set. -/
def spawnWorkerTask (st : OrchState) (iid : String) (bundle : String) : OrchState :=
  { st with
    workerTasks := setTask st.workerTasks iid ⟨st.nextTaskId, .running, bundle⟩,
    spawnedIssues := insertIssue st.spawnedIssues iid,
    nextTaskId := st.nextTaskId + 1 }

/-- `_on_worker_complete`: remove the issue id from the live-task table only;
the ever-spawned set is untouched. -/
def onWorkerComplete (st : OrchState) (iid : String) : OrchState :=
  { st with workerTasks := removeTask st.workerTasks iid }

/-- `_append_spawn_error`: record the formatted error and schedule the
status-to-blocked update for the issue. -/
def appendSpawnError (st : OrchState) (iid : String) (error : String) : OrchState :=
  { st with
    spawnErrors := st.spawnErrors ++ ["Issue #" ++ iid ++ ": " ++ error],
    blockedUpdates := st.blockedUpdates ++ [iid] }

/-- Whether the tracked task for `iid`, if any, is still unfinished
(`task and not task.done()`). -/
def taskAlive (st : OrchState) (iid : String) : Bool :=
  match lookupTask st.workerTasks iid with
  | some t => ! t.state.done
  | none => false

/-- `_maybe_spawn_worker`: bail out without an issue id; suppress duplicates
while a tracked task is unfinished; otherwise mark the issue as ever-spawned,
route it, check the pool's bundle, resolve the path and spawn a tracked task,
recording a spawn error on routing or bundle-configuration failure. -/
def maybeSpawnWorker (st : OrchState) (res : IssueResult) : OrchState :=
  match res.issue with
  | none => st
  | some issue =>
    match issue.id with
    | none => st
    | some iid =>
      if iid = "" then st
      else if st.spawnedIssues.contains iid && taskAlive st iid then st
      else
        let st1 := { st with spawnedIssues := insertIssue st.spawnedIssues iid }
        match routeIssue st1.workerPools st1.routing issue with
        | none => appendSpawnError st1 iid ("No worker pool found for issue " ++ iid)
        | some pool =>
          match pool.worker_bundle with
          | none =>
            appendSpawnError st1 iid
              ("No worker_bundle configured for pool " ++ pool.name.getD "unknown")
          | some wb =>
            if wb = "" then
              appendSpawnError st1 iid
                ("No worker_bundle configured for pool " ++ pool.name.getD "unknown")
            else
              spawnWorkerTask st1 iid (resolveBundlePath st1.repoRoot wb)

/-- The status string `get_worker_status` derives from one task's flags, in
the source's branch order (done, then cancelled, then exception). -/
def taskStatusStr (t : WorkerTask) : String :=
  if t.state.done then
    if t.state.isCancelled then "cancelled"
    else if t.state.hasException then "failed"
    else "completed"
  else "running"

/-- `get_worker_status`: map every tracked issue id to its derived status. -/
def getWorkerStatus (st : OrchState) : List (String × String) :=
  st.workerTasks.map (fun p => (p.1, taskStatusStr p.2))

/-! ## Recovery scanner (`_maybe_recover_orphaned_issues`) -/

/-- Python truthiness of `issue.get("id")`: a present, non-empty id. -/
def issueIdOk (i : Issue) : Option String :=
  match i.id with
  | some s => if s = "" then none else some s
  | none => none

/-- One scan pass over a status-filtered issue list, accumulating issues to
recover and the `seen_ids` set.  `checkTasks` is true for the `in_progress`
pass, where ids present in the live-task table are skipped. -/
def scanIssues (tasks : List String) (checkTasks : Bool) :
    List Issue → List Issue × List String → List Issue × List String
  | [], acc => acc
  | i :: rest, acc =>
    match issueIdOk i with
    | none => scanIssues tasks checkTasks rest acc
    | some iid =>
      if acc.2.contains iid then scanIssues tasks checkTasks rest acc
      else if checkTasks && tasks.contains iid then scanIssues tasks checkTasks rest acc
      else scanIssues tasks checkTasks rest (acc.1 ++ [i], acc.2 ++ [iid])

/-- The `issues_to_recover` list: open issues first (no live-task check),
then in-progress issues not already seen and without a live task. -/
def orphansFound (st : OrchState) (store : IssueStore) : List Issue :=
  let acc1 := scanIssues (taskKeys st.workerTasks) false store.openIssues ([], [])
  (scanIssues (taskKeys st.workerTasks) true store.inProgressIssues acc1).1

/-- `_maybe_recover_orphaned_issues`: a no-op returning 0 once recovery has
run; otherwise scan, store a non-empty result for one-time reporting, record
the count, and mark recovery done. -/
def recoverOrphans (st : OrchState) (store : IssueStore) : Nat × OrchState :=
  if st.recoveryDone then (0, st)
  else
    let found := orphansFound st store
    (found.length,
      { st with
        recoveryDone := true,
        orphanedIssues := if found.isEmpty then st.orphanedIssues else found,
        recoveredCount := found.length })

/-! ## Progress reporter (`_check_worker_progress` plus the spawn-error
section of `execute`) -/

/-- `issue.get('id', '?')[:8]`. -/
def shortId (i : Issue) : String :=
  (i.id.getD "?").take 8

/-- The orphaned-issues section: header, up to five issue lines, an overflow
line, and the hint line; empty when no orphans are pending. -/
def orphanLines (orphans : List Issue) : List String :=
  if orphans.isEmpty then []
  else
    ("⚠️ Found " ++ toString orphans.length ++ " orphaned issue(s) from previous session:")
      :: ((orphans.take 5).map
            (fun i => "  - #" ++ shortId i ++ ": " ++ i.title.getD "Untitled")
        ++ (if orphans.length > 5 then
              ["  ... and " ++ toString (orphans.length - 5) ++ " more"]
            else [])
        ++ ["  (Use \x27list issues\x27 to see all, or create new issues to restart work)"])

/-- The number of tracked tasks whose derived status is `"running"`. -/
def runningCount (st : OrchState) : Nat :=
  ((getWorkerStatus st).filter (fun p => p.2 = "running")).length

/-- The running-workers section: one line when the count is non-zero. -/
def runningLines (st : OrchState) : List String :=
  if runningCount st = 0 then []
  else ["🔧 " ++ toString (runningCount st) ++ " worker task(s) currently running"]

/-- The completed-issues section: one line when non-empty. -/
def completedLines (issues : List Issue) : List String :=
  if issues.isEmpty then []
  else ["✅ " ++ toString issues.length ++ " issue(s) completed by workers"]

/-- The in-progress section: one line when non-empty. -/
def inProgressLines (issues : List Issue) : List String :=
  if issues.isEmpty then []
  else ["⏳ " ++ toString issues.length ++ " issue(s) in progress"]

/-- The preview lines for pending-user-input issues.  The source indexes
`issue['id']` and `issue['title']` directly, so a missing key raises and the
surrounding `try` keeps only the lines appended so far: the Boolean records
whether all keys were present. -/
def pendingItemLines : List Issue → List String × Bool
  | [] => ([], true)
  | i :: rest =>
    match i.id, i.title with
    | some iid, some t =>
      let tail := pendingItemLines rest
      (("  - #" ++ iid ++ ": " ++ t) :: tail.1, tail.2)
    | _, _ => ([], false)

/-- The body of the `try` block: completed section, pending-user-input
section (header plus a three-item preview), and, unless a missing key aborted
the pending loop, the in-progress section. -/
def tryBlockLines (store : IssueStore) : List String :=
  let cs := completedLines store.completedIssues
  if store.pendingIssues.isEmpty then cs ++ inProgressLines store.inProgressIssues
  else
    let pv := pendingItemLines (store.pendingIssues.take 3)
    let header := "⚠️ " ++ toString store.pendingIssues.length ++ " issue(s) need user input:"
    if pv.2 then cs ++ (header :: pv.1) ++ inProgressLines store.inProgressIssues
    else cs ++ (header :: pv.1)

/-- All digest parts of `_check_worker_progress`, in the source's order. -/
def digestParts (st : OrchState) (store : IssueStore) : List String :=
  orphanLines st.orphanedIssues ++ runningLines st ++ tryBlockLines store

/-- `_check_worker_progress`: join the parts and clear the orphan list. -/
def checkWorkerProgress (st : OrchState) (store : IssueStore) : String × OrchState :=
  (String.intercalate "\n" (digestParts st store), { st with orphanedIssues := [] })

/-- The progress-report assembly in `execute` (lines 458-468): the digest of
`_check_worker_progress`, with accumulated spawn errors appended as their own
section and then cleared. -/
def progressDigest (st : OrchState) (store : IssueStore) : String × OrchState :=
  let base := checkWorkerProgress st store
  if base.2.spawnErrors.isEmpty then base
  else
    let errSection := "⚠️ Worker Spawn Errors:\n" ++ String.intercalate "\n" base.2.spawnErrors
    ((if base.1 = "" then errSection else base.1 ++ "\n\n" ++ errSection),
      { base.2 with spawnErrors := [] })

/-! ## Agent loop driver (`execute`, lines 477-551) -/

/-- A tool call returned by the model (opaque beyond its presence). -/
structure ToolCall where
  callName : String
deriving DecidableEq

/-- A model response: extracted text and requested tool calls. -/
structure ModelResponse where
  text : String
  toolCalls : List ToolCall
deriving DecidableEq

/-- The outcome of one `provider.complete` call: either an exception (caught
by the loop, which returns an error message) or a response. -/
inductive ModelResult where
  | failed (e : String)
  | ok (r : ModelResponse)
deriving DecidableEq

/-- How the agent loop ends: an early return on a provider exception, a
normal break on a response without tool calls, or exhaustion of the
iteration budget (falling out of the `while`, returning the final response). -/
inductive LoopExit where
  | providerError (e : String)
  | noToolCalls
  | budgetExhausted
deriving DecidableEq

/-- The `while iteration < max_iterations` loop of `execute`, abstracting the
opaque provider as the sequence of its replies.  Each executed iteration
makes exactly one model call; the returned `Nat` is the final value of
`iteration`, i.e. both the iteration count and the model-call count. -/
def agentLoop (model : Nat → ModelResult) (maxIter : Nat) (iteration : Nat) :
    Nat × LoopExit :=
  if iteration < maxIter then
    match model iteration with
    | .failed e => (iteration + 1, .providerError e)
    | .ok r =>
      if r.toolCalls.isEmpty then (iteration + 1, .noToolCalls)
      else agentLoop model maxIter (iteration + 1)
  else (iteration, .budgetExhausted)
termination_by maxIter - iteration

/-! ## Tracker operations, for the state invariant -/

/-- Every operation that touches the tracker state. -/
inductive TrackerOp where
  | spawnTask (iid : String) (bundle : String)
  | complete (iid : String)
  | maybeSpawn (res : IssueResult)
  | recover (store : IssueStore)
  | digest (store : IssueStore)
  | finish (iid : String) (s : TaskState)

/-- Apply one tracker operation.  `finish` models the asyncio runtime moving
a tracked task into a terminal state (before its done-callback runs). -/
def applyOp (st : OrchState) : TrackerOp → OrchState
  | .spawnTask iid b => spawnWorkerTask st iid b
  | .complete iid => onWorkerComplete st iid
  | .maybeSpawn res => maybeSpawnWorker st res
  | .recover store => (recoverOrphans st store).2
  | .digest store => (progressDigest st store).2
  | .finish iid s =>
    { st with
      workerTasks := st.workerTasks.map
        (fun p => if p.1 = iid then (p.1, { p.2 with state := s }) else p) }

/-- The tracker invariant: every live-task key has been recorded as spawned. -/
def tasksSubsetSpawned (st : OrchState) : Prop :=
  ∀ iid, iid ∈ taskKeys st.workerTasks → iid ∈ st.spawnedIssues

/-- Task-handle freshness: every tracked task id is below the counter. -/
def taskIdsFresh (st : OrchState) : Prop :=
  ∀ p ∈ st.workerTasks, p.2.taskId < st.nextTaskId

/-- The status wording of the specification: `running` for an unfinished
task, `completed`/`failed` for a finished task without/with an exception,
`cancelled` for a cancelled task.  Stated from the claim's words, to be
compared with `taskStatusStr` derived from the source's flag checks. -/
def specStatusOfState : TaskState → String
  | .running => "running"
  | .completed => "completed"
  | .failed => "failed"
  | .cancelled => "cancelled"

/-- A convenient base state: empty tracker, no pools, no routing. -/
def baseState : OrchState where
  workerPools := []
  routing := { rules := [], default_pool := none }
  maxIterations := 20
  repoRoot := none
  spawnedIssues := []
  spawnErrors := []
  blockedUpdates := []
  workerTasks := []
  recoveryDone := false
  recoveredCount := 0
  orphanedIssues := []
  nextTaskId := 0

/-! ## Helper lemmas -/

theorem mem_insertIssue {s : List String} {iid j : String} :
    j ∈ insertIssue s iid ↔ j ∈ s ∨ j = iid := by
  unfold insertIssue
  by_cases h : iid ∈ s
  · rw [if_pos h]
    constructor
    · exact Or.inl
    · rintro (hj | rfl)
      · exact hj
      · exact h
  · rw [if_neg h]; simp

theorem mem_taskKeys_setTask {l : List (String × WorkerTask)} {iid j : String}
    {t : WorkerTask} :
    j ∈ taskKeys (setTask l iid t) ↔ j = iid ∨ j ∈ taskKeys l := by
  induction l with
  | nil => simp [setTask, taskKeys]
  | cons p rest ih =>
    obtain ⟨k, v⟩ := p
    simp only [taskKeys] at ih ⊢
    by_cases hk : k = iid
    · subst hk
      have hred : setTask ((k, v) :: rest) k t = (k, t) :: rest := by
        simp [setTask]
      rw [hred]
      simp only [List.map_cons, List.mem_cons]
      tauto
    · have hred : setTask ((k, v) :: rest) iid t = (k, v) :: setTask rest iid t := by
        simp [setTask, hk]
      rw [hred]
      simp only [List.map_cons, List.mem_cons, ih]
      tauto

theorem lookupTask_setTask_self (l : List (String × WorkerTask)) (iid : String)
    (t : WorkerTask) : lookupTask (setTask l iid t) iid = some t := by
  induction l with
  | nil =>
    unfold setTask lookupTask
    rw [List.find?_cons_of_pos _ (by simp)]
    rfl
  | cons p rest ih =>
    obtain ⟨k, v⟩ := p
    by_cases hk : k = iid
    · subst hk
      unfold setTask
      rw [if_pos rfl]
      unfold lookupTask
      rw [List.find?_cons_of_pos _ (by simp)]
      rfl
    · unfold setTask
      rw [if_neg hk]
      unfold lookupTask
      rw [List.find?_cons_of_neg _ (by simpa using hk)]
      exact ih

theorem mem_taskKeys_of_lookup {l : List (String × WorkerTask)} {iid : String}
    {t : WorkerTask} (h : lookupTask l iid = some t) : iid ∈ taskKeys l := by
  unfold lookupTask at h
  obtain ⟨p, hp, hmap⟩ := Option.map_eq_some'.mp h
  have hmem := List.mem_of_find?_eq_some hp
  have hkey : p.1 = iid := by simpa using List.find?_some hp
  subst hkey
  exact List.mem_map.mpr ⟨p, hmem, rfl⟩

theorem mem_taskKeys_removeTask {l : List (String × WorkerTask)} {iid j : String} :
    j ∈ taskKeys (removeTask l iid) ↔ j ∈ taskKeys l ∧ j ≠ iid := by
  unfold taskKeys removeTask
  constructor
  · intro h
    obtain ⟨p, hp, rfl⟩ := List.mem_map.mp h
    have hf := List.mem_filter.mp hp
    refine ⟨List.mem_map.mpr ⟨p, hf.1, rfl⟩, ?_⟩
    simpa using hf.2
  · rintro ⟨h, hne⟩
    obtain ⟨p, hp, rfl⟩ := List.mem_map.mp h
    exact List.mem_map.mpr ⟨p, List.mem_filter.mpr ⟨hp, by simpa using hne⟩, rfl⟩

theorem taskKeys_finish (l : List (String × WorkerTask)) (iid : String) (s : TaskState) :
    taskKeys (l.map (fun p => if p.1 = iid then (p.1, { p.2 with state := s }) else p))
      = taskKeys l := by
  unfold taskKeys
  rw [List.map_map]
  exact List.map_congr_left (fun p _ => by by_cases h : p.1 = iid <;> simp [h])

/-! ## Claim theorems -/

/-- **C2**: `_route_issue` resolves a pool in exactly the claimed order:
extract the issue type (`issue_type`, else `metadata.type`, else
`"general"`); return the pool named by `then_pool` of the first rule whose
`if_metadata_type` list contains the type (an unresolvable name yields
`none` without falling through); otherwise a non-empty `default_pool` is
resolved by name; otherwise the first configured pool, or `none` if no pools
are configured. -/
theorem route_resolution_order (pools : List Pool) (cfg : RoutingConfig) (issue : Issue) :
    (issue.issue_type = none →
        extractIssueType issue = issue.metadataType.getD "general") ∧
    (∀ s, issue.issue_type = some s → s ≠ "" → extractIssueType issue = s) ∧
    (∀ r, cfg.rules.find? (ruleMatches (extractIssueType issue)) = some r →
        routeIssue pools cfg issue = getPoolByName pools r.then_pool) ∧
    (cfg.rules.find? (ruleMatches (extractIssueType issue)) = none →
        ∀ d, cfg.default_pool = some d → d ≠ "" →
          routeIssue pools cfg issue = getPoolByName pools (some d)) ∧
    (cfg.rules.find? (ruleMatches (extractIssueType issue)) = none →
        (cfg.default_pool = none ∨ cfg.default_pool = some "") →
        routeIssue pools cfg issue = pools.head?) := by
  refine ⟨?_, ?_, ?_, ?_, ?_⟩
  · intro h
    unfold extractIssueType
    rw [h]
  · intro s hs hne
    unfold extractIssueType
    rw [hs]
    simp [hne]
  · intro r hr
    simp only [routeIssue]
    rw [hr]
  · intro hn d hd hne
    simp only [routeIssue]
    rw [hn, hd]
    simp [hne]
  · intro hn hd
    simp only [routeIssue]
    rw [hn]
    rcases hd with hd | hd
    · rw [hd]
    · rw [hd]; simp

/-- Pools for the routing witness: the configured pools `A` and `B`. -/
def wPools : List Pool := [⟨some "A", some "bundleA"⟩, ⟨some "B", some "bundleB"⟩]

/-- Routing rules for the witness: `coding → A`, `testing → B`, default `A`. -/
def wCfg : RoutingConfig :=
  ⟨[⟨some ["coding"], some "A"⟩, ⟨some ["testing"], some "B"⟩], some "A"⟩

/-- Witness for C2 on the spec's own example: type `testing` routes to `B`
by the second rule; type `unknown` routes to `A` by the default pool. -/
theorem route_resolution_order_witness :
    routeIssue wPools wCfg ⟨some "i", none, some "testing", none, "open"⟩
        = some ⟨some "B", some "bundleB"⟩ ∧
    routeIssue wPools wCfg ⟨some "i", none, some "unknown", none, "open"⟩
        = some ⟨some "A", some "bundleA"⟩ := by
  constructor
  · rw [(route_resolution_order wPools wCfg
        ⟨some "i", none, some "testing", none, "open"⟩).2.2.1
        ⟨some ["testing"], some "B"⟩ (by decide)]
    decide
  · rw [(route_resolution_order wPools wCfg
        ⟨some "i", none, some "unknown", none, "open"⟩).2.2.2.1
        (by decide) "A" rfl (by decide)]
    decide

/-- **C4**: recovery runs once per process lifetime: after any call to
`_maybe_recover_orphaned_issues`, every subsequent call returns `0` and
leaves the whole tracker state unchanged, for arbitrary issue-store
contents. -/
theorem recovery_runs_once (st : OrchState) (store store2 : IssueStore) :
    recoverOrphans (recoverOrphans st store).2 store2 = (0, (recoverOrphans st store).2) := by
  by_cases h : st.recoveryDone
  · simp [recoverOrphans, h]
  · simp [recoverOrphans, h]

/-- **C5**: `get_worker_status` maps each tracked issue id to exactly one of
`running`/`completed`/`failed`/`cancelled`, computed from the task's current
flags: the status derived by the source's flag checks coincides with the
claim's per-state mapping, and the reported ids are exactly the tracked
keys. -/
theorem worker_status_derived (st : OrchState) :
    getWorkerStatus st
        = st.workerTasks.map (fun p => (p.1, specStatusOfState p.2.state)) ∧
      (getWorkerStatus st).map Prod.fst = taskKeys st.workerTasks := by
  constructor
  · unfold getWorkerStatus
    refine List.map_congr_left (fun p _ => ?_)
    cases h : p.2.state <;>
      simp [taskStatusStr, specStatusOfState, h, TaskState.done,
        TaskState.isCancelled, TaskState.hasException]
  · unfold getWorkerStatus taskKeys
    rw [List.map_map]
    exact List.map_congr_left (fun p _ => rfl)

/-- **C8**: `_resolve_bundle_path` returns any path prefixed with `git+`,
`http`, `file:` or `/` unchanged; a relative path under a discoverable repo
root `R` resolves to `normpath(join(R, p))`; with no discoverable root the
relative path is returned unchanged. -/
theorem bundle_path_resolution (root : Option String) (p : String) :
    ((strStartsWith p "git+" ∨ strStartsWith p "http" ∨ strStartsWith p "file:"
        ∨ strStartsWith p "/") → resolveBundlePath root p = p) ∧
    (¬ (strStartsWith p "git+" ∨ strStartsWith p "http" ∨ strStartsWith p "file:"
        ∨ strStartsWith p "/") →
      (∀ R, root = some R → resolveBundlePath root p = normpath (joinPath R p)) ∧
      (root = none → resolveBundlePath root p = p)) := by
  constructor
  · intro h
    unfold resolveBundlePath
    rw [if_pos h]
  · intro h
    constructor
    · intro R hR
      unfold resolveBundlePath
      rw [if_neg h, hR]
    · intro hR
      unfold resolveBundlePath
      rw [if_neg h, hR]

/-- Witness for C8: a `git+https` URL passes through unchanged; the relative
path `workers/x` under root `/repo` resolves to `/repo/workers/x`; with no
root it is returned as-is. -/
theorem bundle_path_resolution_witness :
    resolveBundlePath (some "/repo") "git+https://example/x" = "git+https://example/x" ∧
    resolveBundlePath (some "/repo") "workers/x" = normpath (joinPath "/repo" "workers/x") ∧
    normpath (joinPath "/repo" "workers/x") = "/repo/workers/x" ∧
    resolveBundlePath none "workers/x" = "workers/x" := by
  refine ⟨?_, ?_, by decide, ?_⟩
  · exact (bundle_path_resolution (some "/repo") "git+https://example/x").1
      (Or.inl (by decide))
  · exact ((bundle_path_resolution (some "/repo") "workers/x").2 (by decide)).1 "/repo" rfl
  · exact ((bundle_path_resolution none "workers/x").2 (by decide)).2 rfl

/-- **C10**: when the issue-creation tool result carries no issue id (no
`issue` object, or an issue without an `id`), `_maybe_spawn_worker` returns
immediately with no observable effect: the entire state — live-task table,
ever-spawned set, spawn-error list and scheduled status updates included —
is unchanged. -/
theorem spawn_without_id_noop (st : OrchState) (res : IssueResult)
    (h : res.issue = none ∨ ∃ i, res.issue = some i ∧ i.id = none) :
    maybeSpawnWorker st res = st := by
  rcases h with h | ⟨i, hres, hid⟩
  · unfold maybeSpawnWorker
    rw [h]
  · unfold maybeSpawnWorker
    rw [hres]
    simp [hid]

/-- Witness for C10: a result with no `issue` object, and one whose issue
lacks an `id`, both leave the base state untouched. -/
theorem spawn_without_id_noop_witness :
    maybeSpawnWorker baseState ⟨none⟩ = baseState ∧
    maybeSpawnWorker baseState ⟨some ⟨none, some "t", none, none, "open"⟩⟩ = baseState :=
  ⟨spawn_without_id_noop baseState ⟨none⟩ (Or.inl rfl),
   spawn_without_id_noop baseState ⟨some ⟨none, some "t", none, none, "open"⟩⟩
     (Or.inr ⟨⟨none, some "t", none, none, "open"⟩, rfl, rfl⟩)⟩

/-- A pair found by `lookupTask` is an entry of the table. -/
theorem lookup_mem_pair {l : List (String × WorkerTask)} {iid : String}
    {t : WorkerTask} (h : lookupTask l iid = some t) : (iid, t) ∈ l := by
  unfold lookupTask at h
  obtain ⟨p, hp, hmap⟩ := Option.map_eq_some'.mp h
  have hkey : p.1 = iid := by simpa using List.find?_some hp
  have hmem := List.mem_of_find?_eq_some hp
  obtain ⟨k, v⟩ := p
  cases hkey
  cases hmap
  exact hmem

/-- `_spawn_worker_task` preserves the tracker invariant. -/
theorem inv_spawnWorkerTask {st : OrchState} (hinv : tasksSubsetSpawned st)
    (iid b : String) : tasksSubsetSpawned (spawnWorkerTask st iid b) := by
  intro j hj
  simp only [spawnWorkerTask] at hj ⊢
  rcases mem_taskKeys_setTask.mp hj with rfl | hj
  · exact mem_insertIssue.mpr (Or.inr rfl)
  · exact mem_insertIssue.mpr (Or.inl (hinv _ hj))

/-- `_append_spawn_error` leaves the live-task table and spawned set alone. -/
theorem appendSpawnError_frame (st : OrchState) (iid e : String) :
    (appendSpawnError st iid e).workerTasks = st.workerTasks ∧
    (appendSpawnError st iid e).spawnedIssues = st.spawnedIssues := by
  exact ⟨rfl, rfl⟩

/-- `_maybe_spawn_worker` preserves the tracker invariant along every branch. -/
theorem inv_maybeSpawn (st : OrchState) (res : IssueResult)
    (hinv : tasksSubsetSpawned st) :
    tasksSubsetSpawned (maybeSpawnWorker st res) := by
  simp only [maybeSpawnWorker]
  split
  · exact hinv
  · split
    · exact hinv
    · split
      · exact hinv
      · split
        · exact hinv
        · split
          · intro j hj
            exact mem_insertIssue.mpr (Or.inl (hinv j hj))
          · split
            · intro j hj
              exact mem_insertIssue.mpr (Or.inl (hinv j hj))
            · split
              · intro j hj
                exact mem_insertIssue.mpr (Or.inl (hinv j hj))
              · refine inv_spawnWorkerTask ?_ _ _
                intro j hj
                exact mem_insertIssue.mpr (Or.inl (hinv j hj))

/-- Recovery leaves the live-task table and spawned set alone. -/
theorem recover_frame (st : OrchState) (store : IssueStore) :
    ((recoverOrphans st store).2).workerTasks = st.workerTasks ∧
    ((recoverOrphans st store).2).spawnedIssues = st.spawnedIssues := by
  unfold recoverOrphans
  split <;> exact ⟨rfl, rfl⟩

/-- The progress digest leaves the live-task table and spawned set alone. -/
theorem digest_frame (st : OrchState) (store : IssueStore) :
    ((progressDigest st store).2).workerTasks = st.workerTasks ∧
    ((progressDigest st store).2).spawnedIssues = st.spawnedIssues := by
  simp only [progressDigest, checkWorkerProgress]
  split <;> exact ⟨rfl, rfl⟩

/-- **C9**: every tracker operation preserves the invariant that the
live-task keys form a subset of the ever-spawned set; registering a task
inserts its issue id into both the table and the set, and completion removes
the id only from the table, leaving the spawned set untouched. -/
theorem tracker_ops_invariant (st : OrchState) (op : TrackerOp)
    (hinv : tasksSubsetSpawned st) :
    tasksSubsetSpawned (applyOp st op) ∧
    (∀ iid b,
      iid ∈ taskKeys (applyOp st (TrackerOp.spawnTask iid b)).workerTasks ∧
      iid ∈ (applyOp st (TrackerOp.spawnTask iid b)).spawnedIssues) ∧
    (∀ iid,
      iid ∉ taskKeys (applyOp st (TrackerOp.complete iid)).workerTasks ∧
      (∀ j, j ≠ iid →
        (j ∈ taskKeys (applyOp st (TrackerOp.complete iid)).workerTasks ↔
          j ∈ taskKeys st.workerTasks)) ∧
      (applyOp st (TrackerOp.complete iid)).spawnedIssues = st.spawnedIssues) := by
  refine ⟨?_, ?_, ?_⟩
  · cases op with
    | spawnTask iid b => exact inv_spawnWorkerTask hinv iid b
    | complete iid =>
      intro j hj
      simp only [applyOp, onWorkerComplete] at hj
      exact hinv j (mem_taskKeys_removeTask.mp hj).1
    | maybeSpawn res => exact inv_maybeSpawn st res hinv
    | recover store =>
      intro j hj
      rw [show (applyOp st (TrackerOp.recover store)) = (recoverOrphans st store).2 from rfl]
        at hj ⊢
      rw [(recover_frame st store).1] at hj
      rw [(recover_frame st store).2]
      exact hinv j hj
    | digest store =>
      intro j hj
      rw [show (applyOp st (TrackerOp.digest store)) = (progressDigest st store).2 from rfl]
        at hj ⊢
      rw [(digest_frame st store).1] at hj
      rw [(digest_frame st store).2]
      exact hinv j hj
    | finish iid s =>
      intro j hj
      simp only [applyOp] at hj
      rw [taskKeys_finish] at hj
      exact hinv j hj
  · intro iid b
    constructor
    · simp only [applyOp, spawnWorkerTask]
      exact mem_taskKeys_setTask.mpr (Or.inl rfl)
    · simp only [applyOp, spawnWorkerTask]
      exact mem_insertIssue.mpr (Or.inr rfl)
  · intro iid
    refine ⟨?_, ?_, rfl⟩
    · intro hmem
      simp only [applyOp, onWorkerComplete] at hmem
      exact (mem_taskKeys_removeTask.mp hmem).2 rfl
    · intro j hj
      simp only [applyOp, onWorkerComplete]
      constructor
      · intro h
        exact (mem_taskKeys_removeTask.mp h).1
      · intro h
        exact mem_taskKeys_removeTask.mpr ⟨h, hj⟩

/-- Witness for C9: on the empty base state, spawning task `a` registers it
in both structures, and completing `a` removes it from the table. -/
theorem tracker_ops_invariant_witness :
    "a" ∈ taskKeys (applyOp baseState (TrackerOp.spawnTask "a" "b")).workerTasks ∧
    "a" ∈ (applyOp baseState (TrackerOp.spawnTask "a" "b")).spawnedIssues ∧
    "a" ∉ taskKeys (applyOp baseState (TrackerOp.complete "a")).workerTasks ∧
    (applyOp baseState (TrackerOp.complete "a")).spawnedIssues = baseState.spawnedIssues := by
  have hinv : tasksSubsetSpawned baseState := by
    intro j hj
    simp [baseState, taskKeys] at hj
  have h1 := tracker_ops_invariant baseState (TrackerOp.spawnTask "a" "b") hinv
  exact ⟨(h1.2.1 "a" "b").1, (h1.2.1 "a" "b").2, (h1.2.2 "a").1, (h1.2.2 "a").2.2⟩

/-- The counterexample input for C1: a creation result for issue `X`. -/
def c1Res : IssueResult := ⟨some ⟨some "X", some "t", none, none, "open"⟩⟩

/-- **C1 counterexample**: with no worker pools configured, a
`maybe_spawn_worker` call for issue `X` finds no currently-tracked task, yet
creates no task either — routing fails and a spawn error is recorded — so
"creates a new live worker task if and only if there is no currently-tracked
unfinished task" is false as stated. -/
theorem spawn_iff_counterexample :
    taskKeys baseState.workerTasks = [] ∧
    taskKeys (maybeSpawnWorker baseState c1Res).workerTasks = [] ∧
    (maybeSpawnWorker baseState c1Res).spawnErrors
      = ["Issue #X: No worker pool found for issue X"] := by
  refine ⟨rfl, ?_, ?_⟩ <;> rfl

/-- **C1 (amended)**: provided routing resolves the issue to a pool with a
configured worker bundle, `maybe_spawn_worker` creates a new live task iff
there is no currently-tracked unfinished task for the id: while a tracked
task is unfinished the call is a silent no-op (leaving the state, hence that
one live task, unchanged); once no unfinished task is tracked, the call
installs a fresh running task whose handle is distinct from any previously
tracked one. -/
theorem spawn_dedup_and_respawn (st : OrchState) (res : IssueResult)
    (issue : Issue) (iid : String) (pool : Pool) (wb : String)
    (hinv : tasksSubsetSpawned st)
    (hfresh : taskIdsFresh st)
    (hres : res.issue = some issue)
    (hid : issue.id = some iid)
    (hne : iid ≠ "")
    (hroute : routeIssue st.workerPools st.routing issue = some pool)
    (hwb : pool.worker_bundle = some wb)
    (hwbne : wb ≠ "") :
    (∀ t, lookupTask st.workerTasks iid = some t → t.state.done = false →
        maybeSpawnWorker st res = st) ∧
    (taskAlive st iid = false →
        lookupTask (maybeSpawnWorker st res).workerTasks iid
            = some ⟨st.nextTaskId, TaskState.running, resolveBundlePath st.repoRoot wb⟩ ∧
          ∀ t0, lookupTask st.workerTasks iid = some t0 →
            t0.taskId ≠ st.nextTaskId) := by
  constructor
  · intro t ht hdone
    have hmem : iid ∈ st.spawnedIssues := hinv iid (mem_taskKeys_of_lookup ht)
    have hcontains : st.spawnedIssues.contains iid = true := by
      simpa using hmem
    have halive : taskAlive st iid = true := by
      unfold taskAlive
      rw [ht]
      show (! t.state.done) = true
      rw [hdone]
      rfl
    simp only [maybeSpawnWorker, hres, hid]
    rw [if_neg hne, if_pos (by rw [hcontains, halive]; rfl)]
  · intro halive
    have hcond : (st.spawnedIssues.contains iid && taskAlive st iid) = false := by
      rw [halive, Bool.and_false]
    constructor
    · simp only [maybeSpawnWorker, hres, hid]
      rw [if_neg hne, if_neg (by rw [hcond]; exact Bool.false_ne_true)]
      simp only [hroute, hwb]
      rw [if_neg hwbne]
      simp only [spawnWorkerTask]
      exact lookupTask_setTask_self _ _ _
    · intro t0 ht0
      have hlt := hfresh (iid, t0) (lookup_mem_pair ht0)
      exact Nat.ne_of_lt hlt

/-- The concrete state for the C1 witness: one pool `A`, empty tracker. -/
def c1wState : OrchState :=
  { baseState with workerPools := [⟨some "A", some "bundleA"⟩] }

/-- Witness for C1 (amended): on a state with pool `A` and no tracked task
for `X`, the call installs the fresh running task for `X`. -/
theorem spawn_dedup_and_respawn_witness :
    taskAlive c1wState "X" = false ∧
    lookupTask (maybeSpawnWorker c1wState ⟨some ⟨some "X", some "t", none, none, "open"⟩⟩).workerTasks "X"
      = some ⟨0, TaskState.running, "bundleA"⟩ := by
  refine ⟨rfl, ?_⟩
  have h := spawn_dedup_and_respawn c1wState
      ⟨some ⟨some "X", some "t", none, none, "open"⟩⟩
      ⟨some "X", some "t", none, none, "open"⟩ "X"
      ⟨some "A", some "bundleA"⟩ "bundleA"
      (by intro j hj; simp [c1wState, baseState, taskKeys] at hj)
      (by intro p hp; simp [c1wState, baseState] at hp)
      rfl rfl (by decide) (by decide) rfl (by decide)
  simpa using (h.2 rfl).1

/-- Budget bound for the agent loop, by induction on the remaining budget:
the final iteration count never exceeds `maxIter`. -/
theorem agentLoop_le (model : Nat → ModelResult) (maxIter : Nat) :
    ∀ n iteration, maxIter - iteration ≤ n → iteration ≤ maxIter →
      (agentLoop model maxIter iteration).1 ≤ maxIter := by
  intro n
  induction n with
  | zero =>
    intro iteration hrem hle
    have hnot : ¬ iteration < maxIter := by omega
    unfold agentLoop
    rw [if_neg hnot]
    exact hle
  | succ n ih =>
    intro iteration hrem hle
    unfold agentLoop
    by_cases hlt : iteration < maxIter
    · rw [if_pos hlt]
      cases hm : model iteration with
      | failed e => exact hlt
      | ok r =>
        show (if r.toolCalls.isEmpty = true then (iteration + 1, LoopExit.noToolCalls)
            else agentLoop model maxIter (iteration + 1)).1 ≤ maxIter
        by_cases he : r.toolCalls.isEmpty = true
        · rw [if_pos he]
          exact hlt
        · rw [if_neg he]
          exact ih (iteration + 1) (by omega) hlt
    · rw [if_neg hlt]
      exact hle

/-- Against a model that always requests tool calls, the loop runs the whole
budget and exits by exhaustion. -/
theorem agentLoop_all_tools (model : Nat → ModelResult) (maxIter : Nat)
    (h : ∀ k, ∃ r, model k = ModelResult.ok r ∧ r.toolCalls ≠ []) :
    ∀ n iteration, maxIter - iteration ≤ n → iteration ≤ maxIter →
      agentLoop model maxIter iteration = (maxIter, LoopExit.budgetExhausted) := by
  intro n
  induction n with
  | zero =>
    intro iteration hrem hle
    have hnot : ¬ iteration < maxIter := by omega
    have heq : iteration = maxIter := by omega
    unfold agentLoop
    rw [if_neg hnot, heq]
  | succ n ih =>
    intro iteration hrem hle
    by_cases hlt : iteration < maxIter
    · obtain ⟨r, hm, hr⟩ := h iteration
      have hne : ¬ r.toolCalls.isEmpty = true := by
        simpa [List.isEmpty_iff] using hr
      unfold agentLoop
      rw [if_pos hlt]
      simp only [hm]
      rw [if_neg hne]
      exact ih (iteration + 1) (by omega) hlt
    · have heq : iteration = maxIter := by omega
      unfold agentLoop
      rw [if_neg hlt, heq]

/-- **C6**: against any model behavior that returns tool calls on every
call, `execute`\'s agent loop terminates after exactly the configured
`max_iterations` iterations, falling out of the `while` and returning the
final response (no exception path); and for every model behavior the number
of model calls (= executed iterations) never exceeds `max_iterations`. -/
theorem loop_iteration_budget (model : Nat → ModelResult) (maxIter : Nat)
    (h : ∀ k, ∃ r, model k = ModelResult.ok r ∧ r.toolCalls ≠ []) :
    agentLoop model maxIter 0 = (maxIter, LoopExit.budgetExhausted) ∧
    ∀ m2 : Nat → ModelResult, (agentLoop m2 maxIter 0).1 ≤ maxIter := by
  constructor
  · exact agentLoop_all_tools model maxIter h maxIter 0 (by omega) (by omega)
  · intro m2
    exact agentLoop_le m2 maxIter maxIter 0 (by omega) (by omega)

/-- Witness for C6: a mock model that always returns one tool call makes the
loop with budget 3 run exactly 3 iterations and exit by budget exhaustion. -/
theorem loop_iteration_budget_witness :
    agentLoop (fun _ => ModelResult.ok ⟨"", [⟨"issue_manager"⟩]⟩) 3 0
        = (3, LoopExit.budgetExhausted) ∧
    (agentLoop (fun _ => ModelResult.failed "boom") 3 0).1 ≤ 3 :=
  ⟨(loop_iteration_budget (fun _ => ModelResult.ok ⟨"", [⟨"issue_manager"⟩]⟩) 3
      (fun _ => ⟨⟨"", [⟨"issue_manager"⟩]⟩, rfl, by simp⟩)).1,
   (loop_iteration_budget (fun _ => ModelResult.ok ⟨"", [⟨"issue_manager"⟩]⟩) 3
      (fun _ => ⟨⟨"", [⟨"issue_manager"⟩]⟩, rfl, by simp⟩)).2
     (fun _ => ModelResult.failed "boom")⟩

/-! ## Recovery-scan lemmas for C3 -/

/-- The id-bookkeeping invariant of the recovery scan: `seen_ids` is exactly
the list of ids of the collected issues. -/
def accIds (acc : List Issue × List String) : Prop :=
  acc.2 = acc.1.filterMap issueIdOk

/-- Collected issues are never dropped by further scanning. -/
theorem scanIssues_mono (tasks : List String) (cT : Bool) :
    ∀ issues acc j, j ∈ acc.1 → j ∈ (scanIssues tasks cT issues acc).1 := by
  intro issues
  induction issues with
  | nil => intro acc j hj; exact hj
  | cons i rest ih =>
    intro acc j hj
    unfold scanIssues
    split
    · exact ih acc j hj
    · split
      · exact ih acc j hj
      · split
        · exact ih acc j hj
        · exact ih _ j (List.mem_append.mpr (Or.inl hj))

/-- Every collected issue comes from the accumulator or from the input. -/
theorem scanIssues_src (tasks : List String) (cT : Bool) :
    ∀ issues acc j, j ∈ (scanIssues tasks cT issues acc).1 → j ∈ acc.1 ∨ j ∈ issues := by
  intro issues
  induction issues with
  | nil => intro acc j hj; exact Or.inl hj
  | cons i rest ih =>
    intro acc j hj
    unfold scanIssues at hj
    split at hj
    · rcases ih acc j hj with h | h
      · exact Or.inl h
      · exact Or.inr (List.mem_cons_of_mem _ h)
    · split at hj
      · rcases ih acc j hj with h | h
        · exact Or.inl h
        · exact Or.inr (List.mem_cons_of_mem _ h)
      · split at hj
        · rcases ih acc j hj with h | h
          · exact Or.inl h
          · exact Or.inr (List.mem_cons_of_mem _ h)
        · rcases ih _ j hj with h | h
          · rcases List.mem_append.mp h with h | h
            · exact Or.inl h
            · exact Or.inr (List.mem_cons.mpr (Or.inl (List.mem_singleton.mp h)))
          · exact Or.inr (List.mem_cons_of_mem _ h)

/-- The scan preserves the id-bookkeeping invariant. -/
theorem scanIssues_accIds (tasks : List String) (cT : Bool) :
    ∀ issues acc, accIds acc → accIds (scanIssues tasks cT issues acc) := by
  intro issues
  induction issues with
  | nil => intro acc h; exact h
  | cons i rest ih =>
    intro acc h
    unfold scanIssues
    split
    · exact ih acc h
    · rename_i iid hid
      split
      · exact ih acc h
      · split
        · exact ih acc h
        · apply ih
          show acc.2 ++ [iid] = (acc.1 ++ [i]).filterMap issueIdOk
          rw [List.filterMap_append, ← h]
          simp [hid]

/-- The scan never records the same id twice. -/
theorem scanIssues_nodup (tasks : List String) (cT : Bool) :
    ∀ issues acc, acc.2.Nodup → (scanIssues tasks cT issues acc).2.Nodup := by
  intro issues
  induction issues with
  | nil => intro acc h; exact h
  | cons i rest ih =>
    intro acc h
    unfold scanIssues
    split
    · exact ih acc h
    · rename_i iid hid
      split
      · exact ih acc h
      · rename_i hseen
        split
        · exact ih acc h
        · apply ih
          show (acc.2 ++ [iid]).Nodup
          refine List.Nodup.append h (List.nodup_singleton _) ?_
          intro a ha hb
          rw [List.mem_singleton] at hb
          subst hb
          have hnotin : a ∉ acc.2 := by simpa using hseen
          exact hnotin ha

/-- Every collected issue carries a (non-empty) id. -/
theorem scanIssues_ids_present (tasks : List String) (cT : Bool) :
    ∀ issues acc, (∀ j ∈ acc.1, (issueIdOk j).isSome) →
      ∀ j ∈ (scanIssues tasks cT issues acc).1, (issueIdOk j).isSome := by
  intro issues
  induction issues with
  | nil => intro acc h j hj; exact h j hj
  | cons i rest ih =>
    intro acc h j hj
    unfold scanIssues at hj
    split at hj
    · exact ih acc h j hj
    · rename_i iid hid
      split at hj
      · exact ih acc h j hj
      · split at hj
        · exact ih acc h j hj
        · refine ih _ ?_ j hj
          intro a ha
          rcases List.mem_append.mp ha with ha | ha
          · exact h a ha
          · rw [List.mem_singleton] at ha
            subst ha
            simp [hid]

/-- If every input issue with id `iid` is blocked by the live-task check,
the scan adds no issue with that id. -/
theorem scanIssues_no_id (tasks : List String) (cT : Bool) (iid : String) :
    ∀ issues,
      (∀ i ∈ issues, issueIdOk i = some iid → cT = true ∧ tasks.contains iid = true) →
      ∀ acc, (∀ j ∈ acc.1, issueIdOk j ≠ some iid) →
        ∀ j ∈ (scanIssues tasks cT issues acc).1, issueIdOk j ≠ some iid := by
  intro issues
  induction issues with
  | nil => intro _ acc hacc j hj; exact hacc j hj
  | cons i rest ih =>
    intro hblock acc hacc j hj
    unfold scanIssues at hj
    split at hj
    · exact ih (fun a ha => hblock a (List.mem_cons_of_mem _ ha)) acc hacc j hj
    · rename_i aid hid
      split at hj
      · exact ih (fun a ha => hblock a (List.mem_cons_of_mem _ ha)) acc hacc j hj
      · split at hj
        · exact ih (fun a ha => hblock a (List.mem_cons_of_mem _ ha)) acc hacc j hj
        · rename_i hnb
          refine ih (fun a ha => hblock a (List.mem_cons_of_mem _ ha)) _ ?_ j hj
          intro a ha
          rcases List.mem_append.mp ha with ha | ha
          · exact hacc a ha
          · rw [List.mem_singleton] at ha
            subst ha
            intro hcon
            rw [hid] at hcon
            injection hcon with h
            have hb := hblock a (List.mem_cons_self _ _) (by rw [hid, h])
            apply hnb
            rw [h, hb.1, hb.2]
            rfl

/-- An input issue with an id that the live-task check does not block gets
an issue with that id into the collected list. -/
theorem scanIssues_included (tasks : List String) (cT : Bool) :
    ∀ issues acc, accIds acc →
      ∀ i ∈ issues, ∀ iid, issueIdOk i = some iid →
        ¬ (cT = true ∧ tasks.contains iid = true) →
        ∃ j ∈ (scanIssues tasks cT issues acc).1, issueIdOk j = some iid := by
  intro issues
  induction issues with
  | nil => intro acc _ i hi; cases hi
  | cons a rest ih =>
    intro acc hinv i hi iid hid hnb
    unfold scanIssues
    split
    · rename_i hidA
      rcases List.mem_cons.mp hi with rfl | hi2
      · rw [hidA] at hid; cases hid
      · exact ih acc hinv i hi2 iid hid hnb
    · rename_i aid hidA
      split
      · rename_i hseen
        rcases List.mem_cons.mp hi with rfl | hi2
        · rw [hidA] at hid
          injection hid with h
          have hmem : iid ∈ acc.2 := by
            rw [← h]
            simpa using hseen
          rw [hinv] at hmem
          obtain ⟨j, hj, hjid⟩ := List.mem_filterMap.mp hmem
          exact ⟨j, scanIssues_mono tasks cT rest acc j hj, hjid⟩
        · exact ih acc hinv i hi2 iid hid hnb
      · split
        · rename_i hblock
          rcases List.mem_cons.mp hi with rfl | hi2
          · rw [hidA] at hid
            injection hid with h
            subst h
            rw [Bool.and_eq_true] at hblock
            exact absurd hblock hnb
          · exact ih acc hinv i hi2 iid hid hnb
        · rcases List.mem_cons.mp hi with rfl | hi2
          · refine ⟨i, scanIssues_mono tasks cT rest _ i ?_, hid⟩
            exact List.mem_append.mpr (Or.inr (List.mem_singleton.mpr rfl))
          · refine ih _ ?_ i hi2 iid hid hnb
            show acc.2 ++ [aid] = (acc.1 ++ [a]).filterMap issueIdOk
            rw [List.filterMap_append, ← hinv]
            simp [hidA]

/-- The counterexample issue for C3: an `open` issue with id `X`. -/
def c3Issue : Issue := ⟨some "X", some "t", none, none, "open"⟩

/-- The counterexample state for C3: a live task is tracked for `X`. -/
def c3State : OrchState :=
  { baseState with
    spawnedIssues := ["X"],
    workerTasks := [("X", ⟨0, TaskState.running, "b"⟩)],
    nextTaskId := 1 }

/-- **C3 counterexample**: an `open` issue whose id is currently a key of
the live-task table is still placed on the orphaned list — the live-task
exclusion of `_maybe_recover_orphaned_issues` is applied only in the
`in_progress` pass, so "an issue whose id is currently a key of the
live-task table is excluded from the orphaned list" fails as stated. -/
theorem orphan_exclusion_counterexample :
    "X" ∈ taskKeys c3State.workerTasks ∧
    c3Issue ∈ ((recoverOrphans c3State ⟨[c3Issue], [], [], []⟩).2).orphanedIssues := by
  constructor
  · decide
  · decide

/-- **C3 (amended)**: every issue placed on the orphaned list has status
`open` or `in_progress` and carries a non-empty id, and the list is
deduplicated by id.  The live-task exclusion applies to the `in_progress`
pass only: an id in the live-task table appears among the orphans only if an
`open` issue carries it; every `open` issue with an id is included
regardless of live tasks; and every `in_progress` issue with an id and no
live task is included. -/
theorem recovery_orphan_scan (st : OrchState) (store : IssueStore)
    (hrd : st.recoveryDone = false)
    (horph : st.orphanedIssues = [])
    (hopen : ∀ i ∈ store.openIssues, i.status = "open")
    (hip : ∀ i ∈ store.inProgressIssues, i.status = "in_progress") :
    (∀ i ∈ ((recoverOrphans st store).2).orphanedIssues,
        i.status = "open" ∨ i.status = "in_progress") ∧
    (∀ i ∈ ((recoverOrphans st store).2).orphanedIssues, (issueIdOk i).isSome) ∧
    (((recoverOrphans st store).2).orphanedIssues.filterMap issueIdOk).Nodup ∧
    (∀ iid, iid ∈ taskKeys st.workerTasks →
        (∀ i ∈ store.openIssues, issueIdOk i ≠ some iid) →
        ∀ j ∈ ((recoverOrphans st store).2).orphanedIssues, issueIdOk j ≠ some iid) ∧
    (∀ i ∈ store.openIssues, ∀ iid, issueIdOk i = some iid →
        ∃ j ∈ ((recoverOrphans st store).2).orphanedIssues, issueIdOk j = some iid) ∧
    (∀ i ∈ store.inProgressIssues, ∀ iid, issueIdOk i = some iid →
        iid ∉ taskKeys st.workerTasks →
        ∃ j ∈ ((recoverOrphans st store).2).orphanedIssues, issueIdOk j = some iid) := by
  have hL : ((recoverOrphans st store).2).orphanedIssues = orphansFound st store := by
    unfold recoverOrphans
    rw [if_neg (by rw [hrd]; exact Bool.false_ne_true)]
    show (if (orphansFound st store).isEmpty = true then st.orphanedIssues
        else orphansFound st store) = orphansFound st store
    split
    · rename_i hE
      rw [horph, List.isEmpty_iff.mp hE]
    · rfl
  rw [hL]
  simp only [orphansFound]
  have hinv1 : accIds
      (scanIssues (taskKeys st.workerTasks) false store.openIssues ([], [])) :=
    scanIssues_accIds _ _ _ _ rfl
  refine ⟨?_, ?_, ?_, ?_, ?_, ?_⟩
  · intro i hi
    rcases scanIssues_src _ _ _ _ i hi with h | h
    · rcases scanIssues_src _ _ _ _ i h with h2 | h2
      · simp at h2
      · exact Or.inl (hopen i h2)
    · exact Or.inr (hip i h)
  · exact scanIssues_ids_present _ _ _ _
      (scanIssues_ids_present _ _ _ _ (fun b hb => absurd hb (List.not_mem_nil b)))
  · have hfin : accIds (scanIssues (taskKeys st.workerTasks) true
        store.inProgressIssues
        (scanIssues (taskKeys st.workerTasks) false store.openIssues ([], []))) :=
      scanIssues_accIds _ _ _ _ hinv1
    rw [← hfin]
    exact scanIssues_nodup _ _ _ _ (scanIssues_nodup _ _ _ _ List.nodup_nil)
  · intro iid hkey hno j hj
    have hcont : (taskKeys st.workerTasks).contains iid = true := by simpa using hkey
    refine scanIssues_no_id _ _ _ _ ?_ _ ?_ j hj
    · intro i hi hc
      exact ⟨rfl, hcont⟩
    · refine scanIssues_no_id _ _ _ _ ?_ _ ?_
      · intro i hi hc
        exact absurd hc (hno i hi)
      · intro a ha
        simp at ha
  · intro i hi iid hid
    obtain ⟨j, hj, hjid⟩ :=
      scanIssues_included _ false _ ([], []) rfl i hi iid hid (by simp)
    exact ⟨j, scanIssues_mono _ _ _ _ j hj, hjid⟩
  · intro i hi iid hid hnot
    refine scanIssues_included _ true _ _ hinv1 i hi iid hid ?_
    rintro ⟨-, hc⟩
    exact hnot (by simpa using hc)

/-- The witness issue for C3: an `in_progress` issue with id `Y`. -/
def w3Issue : Issue := ⟨some "Y", some "t", none, none, "in_progress"⟩

/-- The witness store for C3: only the `in_progress` issue `Y`. -/
def w3Store : IssueStore := ⟨[], [w3Issue], [], []⟩

/-- Witness for C3 (amended): on the empty tracker state with one
`in_progress` issue `Y` and no live task, the scan yields a duplicate-free
orphan list, namely `[Y]`. -/
theorem recovery_orphan_scan_witness :
    (((recoverOrphans baseState w3Store).2).orphanedIssues.filterMap issueIdOk).Nodup ∧
    ((recoverOrphans baseState w3Store).2).orphanedIssues = [w3Issue] := by
  constructor
  · exact (recovery_orphan_scan baseState w3Store rfl rfl
      (fun i hi => by simp [w3Store] at hi)
      (fun i hi => by
        simp [w3Store] at hi
        subst hi
        rfl)).2.2.1
  · decide

/-! ## Progress-digest lemmas for C7 -/

/-- The pending-user-input section as the claim describes it: a header plus
the three-item preview (only well-defined when the previewed issues carry
`id` and `title`, which the hypotheses of the claim theorem guarantee). -/
def pendingLines (issues : List Issue) : List String :=
  if issues.isEmpty then []
  else ("⚠️ " ++ toString issues.length ++ " issue(s) need user input:")
    :: (pendingItemLines (issues.take 3)).1

/-- When every previewed issue carries `id` and `title`, the preview loop
completes without a missing-key abort. -/
theorem pendingItemLines_ok (l : List Issue)
    (h : ∀ i ∈ l, (i.id).isSome ∧ (i.title).isSome) :
    (pendingItemLines l).2 = true := by
  induction l with
  | nil => rfl
  | cons i rest ih =>
    obtain ⟨hid0, htitle0⟩ := h i (List.mem_cons_self _ _)
    obtain ⟨iid, hid⟩ := Option.isSome_iff_exists.mp hid0
    obtain ⟨t, ht⟩ := Option.isSome_iff_exists.mp htitle0
    unfold pendingItemLines
    rw [hid, ht]
    exact ih (fun a ha => h a (List.mem_cons_of_mem _ ha))

/-- The preview never emits more lines than it inspects issues. -/
theorem pendingItemLines_length (l : List Issue) :
    (pendingItemLines l).1.length ≤ l.length := by
  induction l with
  | nil => simp [pendingItemLines]
  | cons i rest ih =>
    unfold pendingItemLines
    cases hid : i.id with
    | none => simp
    | some iid =>
      cases ht : i.title with
      | none => simp
      | some t =>
        show ((("  - #" ++ iid ++ ": " ++ t)) :: (pendingItemLines rest).1).length
            ≤ (i :: rest).length
        rw [List.length_cons, List.length_cons]
        exact Nat.succ_le_succ ih

/-- The orphan section is present exactly when orphans are pending. -/
theorem orphanLines_empty_iff (l : List Issue) : orphanLines l = [] ↔ l = [] := by
  cases l with
  | nil => simp [orphanLines]
  | cons a rest => simp [orphanLines]

/-- The running-workers line is present exactly when a task is running. -/
theorem runningLines_empty_iff (st : OrchState) :
    runningLines st = [] ↔ runningCount st = 0 := by
  unfold runningLines
  by_cases h : runningCount st = 0
  · simp [h]
  · simp [h]

/-- The completed line is present exactly when completed issues exist. -/
theorem completedLines_empty_iff (l : List Issue) :
    completedLines l = [] ↔ l = [] := by
  cases l with
  | nil => simp [completedLines]
  | cons a rest => simp [completedLines]

/-- The pending section is present exactly when pending issues exist. -/
theorem pendingLines_empty_iff (l : List Issue) : pendingLines l = [] ↔ l = [] := by
  cases l with
  | nil => simp [pendingLines]
  | cons a rest => simp [pendingLines]

/-- The in-progress line is present exactly when such issues exist. -/
theorem inProgressLines_empty_iff (l : List Issue) :
    inProgressLines l = [] ↔ l = [] := by
  cases l with
  | nil => simp [inProgressLines]
  | cons a rest => simp [inProgressLines]

/-- The running-workers section only depends on the live-task table. -/
theorem runningLines_congr {st st2 : OrchState}
    (h : st2.workerTasks = st.workerTasks) : runningLines st2 = runningLines st := by
  unfold runningLines runningCount getWorkerStatus
  rw [h]

/-- With no accumulated spawn errors the digest is exactly the joined
`_check_worker_progress` parts (no error section). -/
theorem progressDigest_no_errors (st : OrchState) (store : IssueStore)
    (herr : st.spawnErrors = []) :
    (progressDigest st store).1 = String.intercalate "\n" (digestParts st store) := by
  simp only [progressDigest, checkWorkerProgress]
  split
  · rfl
  · rename_i hcond
    apply absurd _ hcond
    show st.spawnErrors.isEmpty = true
    rw [herr]
    rfl

/-- **C7**: the progress digest contributes one labeled section per
non-empty category, in the fixed order orphaned issues, running count,
completed, pending-user-input (capped to a three-item preview), in-progress,
spawn errors, and omits every empty category; producing the digest clears
the orphaned-issue list and the spawn-error list, so an immediately
following digest over unchanged store state contains neither orphan nor
error content. -/
theorem progress_digest_sections (st : OrchState) (store : IssueStore)
    (hp : ∀ i ∈ store.pendingIssues, (i.id).isSome ∧ (i.title).isSome) :
    (tryBlockLines store
        = completedLines store.completedIssues ++ pendingLines store.pendingIssues
          ++ inProgressLines store.inProgressIssues) ∧
    (orphanLines st.orphanedIssues = [] ↔ st.orphanedIssues = []) ∧
    (runningLines st = [] ↔ runningCount st = 0) ∧
    (completedLines store.completedIssues = [] ↔ store.completedIssues = []) ∧
    (pendingLines store.pendingIssues = [] ↔ store.pendingIssues = []) ∧
    (inProgressLines store.inProgressIssues = [] ↔ store.inProgressIssues = []) ∧
    ((pendingItemLines (store.pendingIssues.take 3)).1.length ≤ 3) ∧
    (st.spawnErrors = [] →
      (progressDigest st store).1 = String.intercalate "\n" (digestParts st store)) ∧
    (st.spawnErrors ≠ [] →
      (progressDigest st store).1
        = (if String.intercalate "\n" (digestParts st store) = "" then ""
            else String.intercalate "\n" (digestParts st store) ++ "\n\n")
          ++ ("⚠️ Worker Spawn Errors:\n" ++ String.intercalate "\n" st.spawnErrors)) ∧
    ((progressDigest st store).2.orphanedIssues = [] ∧
      (progressDigest st store).2.spawnErrors = []) ∧
    ((progressDigest (progressDigest st store).2 store).1
        = String.intercalate "\n" (runningLines st ++ tryBlockLines store)) := by
  have hok : (pendingItemLines (store.pendingIssues.take 3)).2 = true :=
    pendingItemLines_ok _ (fun i hi => hp i (List.take_subset _ _ hi))
  have htry : tryBlockLines store
      = completedLines store.completedIssues ++ pendingLines store.pendingIssues
        ++ inProgressLines store.inProgressIssues := by
    simp only [tryBlockLines, pendingLines]
    by_cases hE : store.pendingIssues.isEmpty = true
    · rw [if_pos hE, if_pos hE]
      simp
    · rw [if_neg hE, if_neg hE, if_pos hok]
  have hcap : (pendingItemLines (store.pendingIssues.take 3)).1.length ≤ 3 := by
    calc (pendingItemLines (store.pendingIssues.take 3)).1.length
        ≤ (store.pendingIssues.take 3).length := pendingItemLines_length _
      _ ≤ 3 := by simp [List.length_take]
  have hclear : (progressDigest st store).2.orphanedIssues = []
      ∧ (progressDigest st store).2.spawnErrors = [] := by
    simp only [progressDigest, checkWorkerProgress]
    split
    · rename_i hcond
      exact ⟨rfl, List.isEmpty_iff.mp hcond⟩
    · exact ⟨rfl, rfl⟩
  have hdne : st.spawnErrors ≠ [] →
      (progressDigest st store).1
        = (if String.intercalate "\n" (digestParts st store) = "" then ""
            else String.intercalate "\n" (digestParts st store) ++ "\n\n")
          ++ ("⚠️ Worker Spawn Errors:\n" ++ String.intercalate "\n" st.spawnErrors) := by
    intro herr
    simp only [progressDigest, checkWorkerProgress]
    split
    · rename_i hcond
      exact absurd (List.isEmpty_iff.mp hcond) herr
    · by_cases hb : String.intercalate "\n" (digestParts st store) = ""
      · rw [if_pos hb, if_pos hb]
        simp
      · rw [if_neg hb, if_neg hb]
  have hsecond : (progressDigest (progressDigest st store).2 store).1
      = String.intercalate "\n" (runningLines st ++ tryBlockLines store) := by
    rw [progressDigest_no_errors _ store hclear.2]
    unfold digestParts
    rw [hclear.1, runningLines_congr (digest_frame st store).1]
    rfl
  exact ⟨htry, orphanLines_empty_iff _, runningLines_empty_iff _,
    completedLines_empty_iff _, pendingLines_empty_iff _, inProgressLines_empty_iff _,
    hcap, fun herr => progressDigest_no_errors st store herr, hdne, hclear, hsecond⟩

/-- The witness state for C7: one running task, a pending orphan report and
a queued spawn error. -/
def w7St : OrchState :=
  { baseState with
    spawnedIssues := ["W"],
    spawnErrors := ["Issue #Z: Worker execution failed: boom"],
    workerTasks := [("W", ⟨0, TaskState.running, "b"⟩)],
    orphanedIssues := [⟨some "O", some "old", none, none, "open"⟩],
    nextTaskId := 1 }

/-- The witness store for C7: one completed, one pending, one in-progress
issue. -/
def w7Store : IssueStore :=
  ⟨[], [⟨some "I", some "ip", none, none, "in_progress"⟩],
    [⟨some "C", some "done", none, none, "completed"⟩],
    [⟨some "P", some "pt", none, none, "pending_user_input"⟩]⟩

/-- Witness for C7: after one digest over the witness state both transient
lists are cleared, the preview is capped, and the immediately following
digest consists of the running and issue-store sections only. -/
theorem progress_digest_sections_witness :
    (pendingItemLines (w7Store.pendingIssues.take 3)).1.length ≤ 3 ∧
    (progressDigest w7St w7Store).2.orphanedIssues = [] ∧
    (progressDigest w7St w7Store).2.spawnErrors = [] ∧
    (progressDigest (progressDigest w7St w7Store).2 w7Store).1
      = String.intercalate "\n" (runningLines w7St ++ tryBlockLines w7Store) := by
  have h := progress_digest_sections w7St w7Store
    (by
      intro i hi
      simp [w7Store] at hi
      subst hi
      exact ⟨rfl, rfl⟩)
  exact ⟨h.2.2.2.2.2.2.1, h.2.2.2.2.2.2.2.2.2.1.1, h.2.2.2.2.2.2.2.2.2.1.2,
    h.2.2.2.2.2.2.2.2.2.2⟩

end ForemanSpec
